import Mathlib

/-
Verification of the LAS (Log ASCII Standard) well-log parsing and
curve-extraction engine of the Well-Log-Data-Analysis-System repository.

The embedding models:
  - backend/utils/las_parser.py : class LASParser
      (get_available_curves, get_curve_names, get_curve_data,
       get_all_curves_data, get_statistics)
  - backend/models.py : CurveData.get_data (depth-range filter)
  - the LAS document reader (the third-party lasio.read call, which is not
    part of this repository), modelled from the spec.

Numeric data cells are rationals; a cell that is NaN or missing is `none`.
-/

instance {ε α : Type} [DecidableEq ε] [DecidableEq α] :
    DecidableEq (Except ε α) := fun x y =>
  match x, y with
  | Except.error e, Except.error f =>
    if h : e = f then isTrue (by rw [h]) else isFalse (by simp [h])
  | Except.error _, Except.ok _ => isFalse (by simp)
  | Except.ok _, Except.error _ => isFalse (by simp)
  | Except.ok a, Except.ok b =>
    if h : a = b then isTrue (by rw [h]) else isFalse (by simp [h])

/-- Python str.upper on a string (on the ASCII range of LAS mnemonics),
written over the character list so that it computes by reduction. -/
def upperStr (s : String) : String := ⟨s.data.map Char.toUpper⟩

/-- A curve declared in the curve section: mnemonic, unit, description, and
its column of the data matrix (`none` when the curve has no column in the
data matrix, the failure mode batch extraction must tolerate). A data cell
is `none` when it is NaN (missing). -/
structure CurveDef where
  mnemonic : String
  unit : Option String
  descr : Option String
  data : Option (List (Option ℚ))
deriving DecidableEq

/-- A parsed LAS document: the depth index column plus the declared curves.
Mirrors the lasio LASFile object consumed by LASParser: `indexCol` is
`las.index` and `curves` is `las.curves`. -/
structure LASDocument where
  indexCol : List (Option ℚ)
  curves : List CurveDef
deriving DecidableEq

/-- One entry of the available-curves list built by
LASParser.get_available_curves. -/
structure CurveInfo where
  name : String
  unit : String
  description : String
deriving DecidableEq

/-- LASParser.get_available_curves: every declared curve whose upper-cased
mnemonic is neither DEPT nor DEPTH, with unit and description defaulted to
the empty string. -/
def get_available_curves (doc : LASDocument) : List CurveInfo :=
  doc.curves.filterMap fun c =>
    if upperStr c.mnemonic == "DEPT" || upperStr c.mnemonic == "DEPTH" then none
    else some ⟨c.mnemonic, c.unit.getD "", c.descr.getD ""⟩

/-- LASParser.get_curve_names: the names of the available curves. -/
def get_curve_names (doc : LASDocument) : List String :=
  (get_available_curves doc).map CurveInfo.name

/-- The data-cleaning loop of LASParser.get_curve_data: walk the depth
column and the curve column in lockstep and keep exactly the rows where
neither field is NaN/missing. -/
def cleanRows (idx vals : List (Option ℚ)) : List (ℚ × ℚ) :=
  (idx.zip vals).filterMap fun dv => dv.1.bind fun d => dv.2.map fun v => (d, v)

/-- Case analysis on an Except value, used to model Python try/except. -/
def exceptCase {ε α β : Type} (fe : ε → β) (fo : α → β) : Except ε α → β
  | Except.error e => fe e
  | Except.ok a => fo a

/-- LASParser.get_curve_data: resolve the curve by mnemonic, fetch its data
column, drop rows with a missing depth or value, and return the aligned
(depths, values) lists; any failure (curve not declared, or no data column)
is re-raised as a ValueError naming the curve. -/
def get_curve_data (doc : LASDocument) (name : String) :
    Except String (List ℚ × List ℚ) :=
  (((doc.curves.find? fun c => c.mnemonic == name).bind fun c => c.data).elim
    (Except.error ("Error extracting curve " ++ name)))
    (fun col =>
      let rows := cleanRows doc.indexCol col
      Except.ok (rows.map Prod.fst, rows.map Prod.snd))

/-- LASParser.get_all_curves_data restricted to a given list of curve
names: extract each curve, recording a warning and skipping the curve when
extraction fails. Returns the result mapping and the warning list. -/
def get_all_curves_data_from (doc : LASDocument) :
    List String → List (String × (List ℚ × List ℚ)) × List String
  | [] => ([], [])
  | n :: ns =>
    exceptCase
      (fun e => ((get_all_curves_data_from doc ns).1,
        ("Warning: Could not extract curve " ++ n ++ ": " ++ e) ::
          (get_all_curves_data_from doc ns).2))
      (fun dv => ((n, dv) :: (get_all_curves_data_from doc ns).1,
        (get_all_curves_data_from doc ns).2))
      (get_curve_data doc n)

/-- LASParser.get_all_curves_data: batch extraction over all declared
(non-depth) curve names. -/
def get_all_curves_data (doc : LASDocument) :
    List (String × (List ℚ × List ℚ)) × List String :=
  get_all_curves_data_from doc (get_curve_names doc)

/-- The mean of a list of rationals, as computed by np.mean. -/
def listMean (l : List ℚ) : ℚ := l.sum / l.length

/-- The population variance (divide by N) of a list of rationals; np.std
returns its square root. -/
def popVarOf (l : List ℚ) : ℚ :=
  ((l.map fun x => (x - listMean l) ^ 2).sum) / l.length

/-- The statistics record built by LASParser.get_statistics. The field
stdSq is the square of the reported standard deviation (np.std), kept as a
rational so the development stays exact: the code reports
std = sqrt stdSq. -/
structure Stats where
  min : Option ℚ
  max : Option ℚ
  mean : Option ℚ
  stdSq : Option ℚ
deriving DecidableEq

/-- The statistics of a values list: all fields absent on the empty list,
otherwise np.min, np.max, np.mean and the square of np.std. -/
def statsOf : List ℚ → Stats
  | [] => ⟨none, none, none, none⟩
  | v :: vs =>
    ⟨some (vs.foldl min v), some (vs.foldl max v),
      some (listMean (v :: vs)), some (popVarOf (v :: vs))⟩

/-- LASParser.get_statistics: extract the curve (propagating its failure)
and compute statistics over the extracted values. -/
def get_statistics (doc : LASDocument) (name : String) : Except String Stats :=
  exceptCase (fun e => Except.error e)
    (fun dv => Except.ok (statsOf dv.2))
    (get_curve_data doc name)

/-- CurveData.get_data of backend/models.py: return the stored series,
optionally filtered to the samples d with start_depth <= d <= end_depth,
where an absent bound is unconstrained; with both bounds absent the stored
series is returned unchanged. -/
def CurveData.get_data (depths values : List ℚ)
    (start_depth end_depth : Option ℚ) : List ℚ × List ℚ :=
  if start_depth.isNone && end_depth.isNone then (depths, values)
  else
    let kept := (depths.zip values).filter fun dv =>
      (start_depth.all fun s => decide (s ≤ dv.1)) &&
        (end_depth.all fun e => decide (dv.1 ≤ e))
    (kept.map Prod.fst, kept.map Prod.snd)

/-- The depth filter as the spec words it: keep exactly the samples whose
depth lies in [min(start,end), max(start,end)] inclusive, an absent bound
being unconstrained, direction-agnostically. Stated from the spec for
comparison with CurveData.get_data. -/
def depthFilterSpec (depths values : List ℚ)
    (start_depth end_depth : Option ℚ) : List ℚ × List ℚ :=
  let kept := (depths.zip values).filter fun dv =>
    match start_depth, end_depth with
    | some a, some b => decide (min a b ≤ dv.1 ∧ dv.1 ≤ max a b)
    | some a, none => decide (a ≤ dv.1)
    | none, some b => decide (dv.1 ≤ b)
    | none, none => true
  (kept.map Prod.fst, kept.map Prod.snd)

/-- Modelled from the spec: the declared sections of a raw LAS file after
header parsing — the null sentinel from the well section, the curve
section entries (mnemonic, unit, description; the first entry is the depth
index), and the numeric data rows. The reader itself (the lasio.read call)
is not part of this repository, so it is modelled from spec section 4.1. -/
structure RawLAS where
  nullValue : ℚ
  headerDefs : List (String × Option String × Option String)
  dataRows : List (List ℚ)
deriving DecidableEq

/-- Modelled from the spec: null-sentinel substitution — a value within
tolerance 1e-6 of the declared null sentinel is treated as missing. -/
def substituteNull (nullv v : ℚ) : Option ℚ :=
  if |v - nullv| < 1 / 1000000 then none else some v

/-- Modelled from the spec: assemble the curve objects, giving the curve at
ordinal i the i-th column of the surviving data rows, with the null
sentinel replaced by a missing cell. -/
def buildCurves (nullv : ℚ) (good : List (List ℚ)) :
    Nat → List (String × Option String × Option String) → List CurveDef
  | _, [] => []
  | i, (m, u, d) :: rest =>
    ⟨m, u, d, some (good.map fun r => (r[i]?).bind (substituteNull nullv))⟩ ::
      buildCurves nullv good (i + 1) rest

/-- Modelled from the spec: the LAS Document Reader (the lasio.read call,
not part of this repository). A data row whose field count differs from
the declared curve count is dropped; if no rows survive, the parse fails
with a FormatError; otherwise the document is built column-wise with
null-sentinel substitution, the first column being the depth index. -/
def read_las (raw : RawLAS) : Except String LASDocument :=
  let good := raw.dataRows.filter fun r => r.length == raw.headerDefs.length
  if good.isEmpty then Except.error "FormatError: zero data rows parsed"
  else Except.ok
    ⟨good.map fun r => (r[0]?).bind (substituteNull raw.nullValue),
      buildCurves raw.nullValue good 0 raw.headerDefs⟩

/-- A small parsed document with one NaN depth row, used as a concrete
instance of the extraction theorems. -/
def docW : LASDocument :=
  ⟨[some 100, none, some 300],
   [⟨"DEPT", some "M", none, some [some 100, none, some 300]⟩,
    ⟨"GR", some "API", some "Gamma Ray", some [some 50, some 60, none]⟩]⟩

/-- A parsed document whose GR curve holds the series [1, 2, 3, 4], the
known series of the statistics test. -/
def doc4 : LASDocument :=
  ⟨[some 100, some 200, some 300, some 400],
   [⟨"DEPT", some "M", none, some [some 100, some 200, some 300, some 400]⟩,
    ⟨"GR", some "API", none, some [some 1, some 2, some 3, some 4]⟩]⟩

/-- A parsed document whose every row has a missing depth, so that every
extracted series is empty. -/
def docE : LASDocument :=
  ⟨[none], [⟨"DEPT", some "M", none, some [none]⟩,
    ⟨"GR", none, none, some [some 5]⟩]⟩

/-- A raw LAS file declaring the null sentinel -999.25, one of whose rows
carries the sentinel as its GR value. -/
def raw5 : RawLAS :=
  ⟨-999.25, [("DEPT", some "M", none), ("GR", some "API", none)],
   [[100, 50], [200, -999.25], [300, 60]]⟩

/-- The document read_las produces from raw5: the sentinel cell has become
a missing cell. -/
def doc5 : LASDocument :=
  ⟨[some 100, some 200, some 300],
   [⟨"DEPT", some "M", none, some [some 100, some 200, some 300]⟩,
    ⟨"GR", some "API", none, some [some 50, none, some 60]⟩]⟩

/-- A raw LAS file with two declared curves whose every data row has the
wrong field count. -/
def raw8 : RawLAS :=
  ⟨-999.25, [("DEPT", none, none), ("GR", none, none)], [[1], [2, 3, 4]]⟩

/-- A parsed document declaring GR, RHOB and BADCURVE, where BADCURVE has
no column in the data matrix. -/
def doc7 : LASDocument :=
  ⟨[some 100],
   [⟨"DEPT", some "M", none, some [some 100]⟩,
    ⟨"GR", none, none, some [some 50]⟩,
    ⟨"RHOB", none, none, some [some 2]⟩,
    ⟨"BADCURVE", none, none, none⟩]⟩

/-- A parsed document whose index column is its first declared curve, named
MD rather than DEPT/DEPTH. -/
def docC9 : LASDocument :=
  ⟨[some 100],
   [⟨"MD", some "M", some "measured depth index", some [some 100]⟩,
    ⟨"GR", some "API", none, some [some 50]⟩]⟩

lemma mem_zip_exists_getElem {α β : Type} (l1 : List α) :
    ∀ (l2 : List β) (a : α) (b : β), (a, b) ∈ l1.zip l2 →
      ∃ j : Nat, l1[j]? = some a ∧ l2[j]? = some b := by
  induction l1 with
  | nil => intro l2 a b h; simp [List.zip] at h
  | cons x xs ih =>
    intro l2 a b h
    cases l2 with
    | nil => simp [List.zip] at h
    | cons y ys =>
      rcases List.mem_cons.mp h with h1 | h2
      · refine ⟨0, ?_, ?_⟩ <;> simp_all [Prod.ext_iff]
      · obtain ⟨j, hj1, hj2⟩ := ih ys a b h2
        exact ⟨j + 1, by simpa using hj1, by simpa using hj2⟩

lemma cleanRows_mem {idx vals : List (Option ℚ)} {p : ℚ × ℚ}
    (hp : p ∈ cleanRows idx vals) :
    ∃ j : Nat, idx[j]? = some (some p.1) ∧ vals[j]? = some (some p.2) := by
  unfold cleanRows at hp
  rw [List.mem_filterMap] at hp
  obtain ⟨dv, hdv, hjoin⟩ := hp
  obtain ⟨d, v⟩ := dv
  cases d with
  | none => simp at hjoin
  | some d0 =>
    cases v with
    | none => simp at hjoin
    | some v0 =>
      have hpv : (d0, v0) = p := by simpa using hjoin
      subst hpv
      exact mem_zip_exists_getElem idx vals (some d0) (some v0) hdv

lemma get_curve_data_ok_elim {doc : LASDocument} {name : String}
    {ds vs : List ℚ} (h : get_curve_data doc name = Except.ok (ds, vs)) :
    ∃ col,
      ((doc.curves.find? fun c => c.mnemonic == name).bind fun c => c.data) =
        some col ∧
      ds = (cleanRows doc.indexCol col).map Prod.fst ∧
      vs = (cleanRows doc.indexCol col).map Prod.snd := by
  unfold get_curve_data at h
  cases hcol : (doc.curves.find? fun c => c.mnemonic == name).bind
      fun c => c.data with
  | none => rw [hcol] at h; simp [Option.elim] at h
  | some col =>
    rw [hcol] at h
    simp only [Option.elim, Except.ok.injEq, Prod.mk.injEq] at h
    exact ⟨col, rfl, h.1.symm, h.2.symm⟩

lemma substituteNull_eq_some {nullv x d : ℚ}
    (h : substituteNull nullv x = some d) : x = d ∧ d ≠ nullv := by
  unfold substituteNull at h
  split at h
  · exact absurd h (by simp)
  · rename_i hc
    obtain rfl : x = d := by simpa using h
    refine ⟨rfl, fun hdn => hc ?_⟩
    rw [hdn]
    norm_num

lemma buildCurves_mem {nullv : ℚ} {good : List (List ℚ)}
    (defs : List (String × Option String × Option String)) :
    ∀ (i : Nat) (c : CurveDef), c ∈ buildCurves nullv good i defs →
      ∃ j : Nat, c.data =
        some (good.map fun r => (r[j]?).bind (substituteNull nullv)) := by
  induction defs with
  | nil => intro i c hc; simp [buildCurves] at hc
  | cons hd tl ih =>
    intro i c hc
    obtain ⟨m, u, d⟩ := hd
    rw [buildCurves] at hc
    rcases List.mem_cons.mp hc with h1 | h2
    · exact ⟨i, by rw [h1]⟩
    · exact ih (i + 1) c h2

/-- Claim C10: calling the depth filter CurveData.get_data with both bounds
absent returns the stored depths and values sequences unchanged. -/
theorem C10_no_bounds_identity (depths values : List ℚ) :
    CurveData.get_data depths values none none = (depths, values) := rfl

/-- Claim C6: when the requested mnemonic is absent from the curve section,
get_curve_data fails with the error naming the curve rather than returning
data. -/
theorem C6_curve_not_found (doc : LASDocument) (name : String)
    (h : ∀ c ∈ doc.curves, c.mnemonic ≠ name) :
    get_curve_data doc name =
      Except.error ("Error extracting curve " ++ name) := by
  have hf : (doc.curves.find? fun c => c.mnemonic == name) = none := by
    rw [List.find?_eq_none]
    intro c hc
    simpa using h c hc
  unfold get_curve_data
  rw [hf]
  rfl

/-- Witness for C6 at a concrete document and absent curve name. -/
theorem C6_curve_not_found_witness :
    get_curve_data docW "MISSING" =
      Except.error ("Error extracting curve " ++ "MISSING") :=
  C6_curve_not_found docW "MISSING" (by decide)

/-- Claim C3: when the extracted values sequence of a curve is empty,
get_statistics returns all four fields absent and no error. -/
theorem C3_empty_series_policy (doc : LASDocument) (name : String)
    (ds : List ℚ) (h : get_curve_data doc name = Except.ok (ds, [])) :
    get_statistics doc name = Except.ok ⟨none, none, none, none⟩ := by
  unfold get_statistics
  rw [h]
  rfl

/-- Witness for C3 at a concrete document whose GR series is empty. -/
theorem C3_empty_series_policy_witness :
    get_statistics docE "GR" = Except.ok ⟨none, none, none, none⟩ :=
  C3_empty_series_policy docE "GR" [] (by decide)

/-- Claim C1: for every curve and parsed document, the two sequences
returned by get_curve_data have equal length, and each pair of
corresponding entries is the depth field and the value field of one shared
row of the source data, with neither field missing. -/
theorem C1_alignment_invariant (doc : LASDocument) (name : String)
    (ds vs : List ℚ) (h : get_curve_data doc name = Except.ok (ds, vs)) :
    ds.length = vs.length ∧
    ∀ i (hd : i < ds.length) (hv : i < vs.length),
      ∃ col, ∃ j : Nat,
        ((doc.curves.find? fun c => c.mnemonic == name).bind fun c => c.data) =
          some col ∧
        doc.indexCol[j]? = some (some ds[i]) ∧
        col[j]? = some (some vs[i]) := by
  obtain ⟨col, hcol, hds, hvs⟩ := get_curve_data_ok_elim h
  subst hds
  subst hvs
  refine ⟨by simp, ?_⟩
  intro i hd hv
  have hi : i < (cleanRows doc.indexCol col).length := by
    simpa using hd
  have hp : (cleanRows doc.indexCol col)[i] ∈ cleanRows doc.indexCol col :=
    List.getElem_mem _
  obtain ⟨j, hj1, hj2⟩ := cleanRows_mem hp
  refine ⟨col, j, hcol, ?_, ?_⟩
  · simpa [List.getElem_map] using hj1
  · simpa [List.getElem_map] using hj2

/-- Witness for C1 at a concrete document with a NaN depth row. -/
theorem C1_alignment_invariant_witness :
    ([(100 : ℚ)].length = [(50 : ℚ)].length) ∧
    ∀ i (hd : i < [(100 : ℚ)].length) (hv : i < [(50 : ℚ)].length),
      ∃ col, ∃ j : Nat,
        ((docW.curves.find? fun c => c.mnemonic == "GR").bind fun c => c.data) =
          some col ∧
        docW.indexCol[j]? = some (some [(100 : ℚ)][i]) ∧
        col[j]? = some (some [(50 : ℚ)][i]) :=
  C1_alignment_invariant docW "GR" [100] [50] (by decide)

/-- Claim C2 counterexample: with start above end, the code returns the
empty series while the claimed direction-agnostic filter keeps every
sample, so the claim fails as stated. -/
theorem C2_depth_filter_counterexample :
    CurveData.get_data [1, 2, 3] [10, 20, 30] (some 3) (some 1) = ([], []) ∧
    depthFilterSpec [1, 2, 3] [10, 20, 30] (some 3) (some 1) =
      ([1, 2, 3], [10, 20, 30]) ∧
    CurveData.get_data [1, 2, 3] [10, 20, 30] (some 3) (some 1) ≠
      depthFilterSpec [1, 2, 3] [10, 20, 30] (some 3) (some 1) := by
  decide

/-- Claim C2 as amended: provided start <= end whenever both bounds are
present (and the stored series is aligned), the filter returns exactly the
subsequence of samples whose depth lies in the claimed inclusive range,
preserving order; with start above end the code instead returns the empty
series. -/
theorem C2_depth_filter_amended (depths values : List ℚ)
    (s e : Option ℚ) (hse : ∀ a b, s = some a → e = some b → a ≤ b)
    (hlen : depths.length = values.length) :
    CurveData.get_data depths values s e = depthFilterSpec depths values s e := by
  cases s with
  | none =>
    cases e with
    | none =>
      unfold CurveData.get_data depthFilterSpec
      simp only [Option.isNone_none, Bool.and_self, if_true, List.filter_true]
      rw [List.map_fst_zip _ _ (le_of_eq hlen),
        List.map_snd_zip _ _ (le_of_eq hlen.symm)]
    | some b =>
      unfold CurveData.get_data depthFilterSpec
      simp [Option.all]
  | some a =>
    cases e with
    | none =>
      unfold CurveData.get_data depthFilterSpec
      simp [Option.all]
    | some b =>
      have hab : a ≤ b := hse a b rfl rfl
      unfold CurveData.get_data depthFilterSpec
      simp [Option.all, min_eq_left hab, max_eq_right hab, Bool.decide_and]

/-- Witness for the amended C2 at a concrete series and ordered bounds. -/
theorem C2_depth_filter_amended_witness :
    CurveData.get_data [1, 2, 3] [10, 20, 30] (some 1) (some 2) =
      depthFilterSpec [1, 2, 3] [10, 20, 30] (some 1) (some 2) :=
  C2_depth_filter_amended [1, 2, 3] [10, 20, 30] (some 1) (some 2)
    (by intro a b ha hb
        obtain rfl : a = 1 := by simpa using ha.symm
        obtain rfl : b = 2 := by simpa using hb.symm
        norm_num)
    rfl

lemma foldl_min_spec (vs : List ℚ) :
    ∀ v : ℚ, vs.foldl min v ∈ v :: vs ∧ ∀ x ∈ v :: vs, vs.foldl min v ≤ x := by
  induction vs with
  | nil =>
    intro v
    refine ⟨by simp, ?_⟩
    intro x hx
    obtain rfl : x = v := by simpa using hx
    simp
  | cons w ws ih =>
    intro v
    have h := ih (min v w)
    constructor
    · rw [List.foldl_cons]
      rcases List.mem_cons.mp h.1 with h1 | h2
      · rcases min_choice v w with hm | hm
        · rw [h1, hm]; exact List.mem_cons_self _ _
        · rw [h1, hm]; exact List.mem_cons_of_mem _ (List.mem_cons_self _ _)
      · exact List.mem_cons_of_mem _ (List.mem_cons_of_mem _ h2)
    · intro x hx
      rw [List.foldl_cons]
      rcases List.mem_cons.mp hx with rfl | hx2
      · exact le_trans (h.2 _ (List.mem_cons_self _ _)) (min_le_left _ _)
      · rcases List.mem_cons.mp hx2 with rfl | hx3
        · exact le_trans (h.2 _ (List.mem_cons_self _ _)) (min_le_right _ _)
        · exact h.2 x (List.mem_cons_of_mem _ hx3)

lemma foldl_max_spec (vs : List ℚ) :
    ∀ v : ℚ, vs.foldl max v ∈ v :: vs ∧ ∀ x ∈ v :: vs, x ≤ vs.foldl max v := by
  induction vs with
  | nil =>
    intro v
    refine ⟨by simp, ?_⟩
    intro x hx
    obtain rfl : x = v := by simpa using hx
    simp
  | cons w ws ih =>
    intro v
    have h := ih (max v w)
    constructor
    · rw [List.foldl_cons]
      rcases List.mem_cons.mp h.1 with h1 | h2
      · rcases max_choice v w with hm | hm
        · rw [h1, hm]; exact List.mem_cons_self _ _
        · rw [h1, hm]; exact List.mem_cons_of_mem _ (List.mem_cons_self _ _)
      · exact List.mem_cons_of_mem _ (List.mem_cons_of_mem _ h2)
    · intro x hx
      rw [List.foldl_cons]
      rcases List.mem_cons.mp hx with rfl | hx2
      · exact le_trans (le_max_left _ _) (h.2 _ (List.mem_cons_self _ _))
      · rcases List.mem_cons.mp hx2 with rfl | hx3
        · exact le_trans (le_max_right _ _) (h.2 _ (List.mem_cons_self _ _))
        · exact h.2 x (List.mem_cons_of_mem _ hx3)

/-- Claim C4: on a nonempty extracted series, get_statistics reports the
least element, the greatest element, the arithmetic mean (the sum divided
by N) and the population variance (divide by N, not N minus 1, so the
reported standard deviation is its square root); in particular on the
series [1, 2, 3, 4] it reports min 1, max 4, mean 5/2 and squared standard
deviation 5/4, that is std = sqrt 1.25. -/
theorem C4_statistics_correct :
    (∀ (doc : LASDocument) (name : String) (ds : List ℚ) (v : ℚ)
        (vs : List ℚ), get_curve_data doc name = Except.ok (ds, v :: vs) →
      ∃ mn mx, get_statistics doc name =
          Except.ok ⟨some mn, some mx, some (listMean (v :: vs)),
            some (popVarOf (v :: vs))⟩ ∧
        mn ∈ v :: vs ∧ (∀ x ∈ v :: vs, mn ≤ x) ∧
        mx ∈ v :: vs ∧ (∀ x ∈ v :: vs, x ≤ mx) ∧
        listMean (v :: vs) * ((v :: vs).length : ℚ) = (v :: vs).sum ∧
        popVarOf (v :: vs) * ((v :: vs).length : ℚ) =
          ((v :: vs).map fun x => (x - listMean (v :: vs)) ^ 2).sum) ∧
    get_statistics doc4 "GR" =
      Except.ok ⟨some 1, some 4, some (5 / 2), some (5 / 4)⟩ ∧
    Real.sqrt (5 / 4) = Real.sqrt 1.25 := by
  refine ⟨?_, ?_, ?_⟩
  · intro doc name ds v vs h
    have h0 : (v :: vs).length ≠ 0 := by simp
    have hl : ((v :: vs).length : ℚ) ≠ 0 := Nat.cast_ne_zero.mpr h0
    refine ⟨vs.foldl min v, vs.foldl max v, ?_,
      (foldl_min_spec vs v).1, (foldl_min_spec vs v).2,
      (foldl_max_spec vs v).1, (foldl_max_spec vs v).2,
      div_mul_cancel₀ _ hl, div_mul_cancel₀ _ hl⟩
    unfold get_statistics
    rw [h]
    rfl
  · have hgcd : get_curve_data doc4 "GR" =
        Except.ok ([100, 200, 300, 400], [1, 2, 3, 4]) := by decide
    unfold get_statistics
    rw [hgcd]
    norm_num [exceptCase, statsOf, listMean, popVarOf, min_def, max_def,
      Stats.mk.injEq]
  · norm_num

/-- Witness for C4, instantiating the nonempty-series statement on the
known series [1, 2, 3, 4] held by doc4. -/
theorem C4_statistics_correct_witness :
    ∃ mn mx, get_statistics doc4 "GR" =
        Except.ok ⟨some mn, some mx, some (listMean [1, 2, 3, 4]),
          some (popVarOf [1, 2, 3, 4])⟩ ∧
      mn ∈ [(1 : ℚ), 2, 3, 4] ∧ (∀ x ∈ [(1 : ℚ), 2, 3, 4], mn ≤ x) ∧
      mx ∈ [(1 : ℚ), 2, 3, 4] ∧ (∀ x ∈ [(1 : ℚ), 2, 3, 4], x ≤ mx) ∧
      listMean [1, 2, 3, 4] * (([(1 : ℚ), 2, 3, 4]).length : ℚ) =
        ([(1 : ℚ), 2, 3, 4]).sum ∧
      popVarOf [1, 2, 3, 4] * (([(1 : ℚ), 2, 3, 4]).length : ℚ) =
        (([(1 : ℚ), 2, 3, 4]).map fun x => (x - listMean [1, 2, 3, 4]) ^ 2).sum :=
  C4_statistics_correct.1 doc4 "GR" [100, 200, 300, 400] 1 [2, 3, 4] (by decide)

/-- Claim C5: a document produced by the reader from a file declaring a
null sentinel never yields, for any curve, an extracted depth or value
equal to the declared sentinel. -/
theorem C5_null_sentinel_excluded (raw : RawLAS) (doc : LASDocument)
    (name : String) (ds vs : List ℚ)
    (h1 : read_las raw = Except.ok doc)
    (h2 : get_curve_data doc name = Except.ok (ds, vs)) :
    (∀ d ∈ ds, d ≠ raw.nullValue) ∧ (∀ v ∈ vs, v ≠ raw.nullValue) := by
  simp only [read_las] at h1
  by_cases hem :
      (raw.dataRows.filter fun r => r.length == raw.headerDefs.length).isEmpty
  · rw [if_pos hem] at h1
    exact absurd h1 (by simp)
  · rw [if_neg hem] at h1
    have hdoc :
        (⟨(raw.dataRows.filter fun r =>
            r.length == raw.headerDefs.length).map fun r =>
              (r[0]?).bind (substituteNull raw.nullValue),
          buildCurves raw.nullValue
            (raw.dataRows.filter fun r => r.length == raw.headerDefs.length)
            0 raw.headerDefs⟩ : LASDocument) = doc := by
      simpa using h1
    subst hdoc
    obtain ⟨col, hcol, hds, hvs⟩ := get_curve_data_ok_elim h2
    obtain ⟨c, hfind, hcdata⟩ := Option.bind_eq_some.mp hcol
    have hc := List.mem_of_find?_eq_some hfind
    obtain ⟨j, hjdata⟩ := buildCurves_mem raw.headerDefs 0 c hc
    rw [hjdata] at hcdata
    have hcoleq :
        (raw.dataRows.filter fun r =>
          r.length == raw.headerDefs.length).map
            (fun r => (r[j]?).bind (substituteNull raw.nullValue)) = col := by
      simpa using hcdata
    constructor
    · intro d hd
      rw [hds] at hd
      obtain ⟨p, hp, hpd⟩ := List.mem_map.mp hd
      obtain ⟨jj, hj1, _⟩ := cleanRows_mem hp
      rw [List.getElem?_map] at hj1
      obtain ⟨r, _, hfr⟩ := Option.map_eq_some'.mp hj1
      obtain ⟨x, _, hsub⟩ := Option.bind_eq_some.mp hfr
      rw [← hpd]
      exact (substituteNull_eq_some hsub).2
    · intro v hv
      rw [hvs] at hv
      obtain ⟨p, hp, hpv⟩ := List.mem_map.mp hv
      obtain ⟨jj, _, hj2⟩ := cleanRows_mem hp
      rw [← hcoleq, List.getElem?_map] at hj2
      obtain ⟨r, _, hfr⟩ := Option.map_eq_some'.mp hj2
      obtain ⟨x, _, hsub⟩ := Option.bind_eq_some.mp hfr
      rw [← hpv]
      exact (substituteNull_eq_some hsub).2

/-- Witness for C5: reading raw5, whose second row carries the sentinel as
its GR value, and extracting GR yields series free of the sentinel. -/
theorem C5_null_sentinel_excluded_witness :
    (∀ d ∈ [(100 : ℚ), 300], d ≠ raw5.nullValue) ∧
    (∀ v ∈ [(50 : ℚ), 60], v ≠ raw5.nullValue) :=
  C5_null_sentinel_excluded raw5 doc5 "GR" [100, 300] [50, 60]
    (by norm_num [read_las, raw5, doc5, buildCurves, substituteNull,
      List.filter_cons, LASDocument.mk.injEq, CurveDef.mk.injEq, abs_lt])
    (by decide)

/-- Claim C8: when every data row is malformed (wrong field count), the
reader fails with a FormatError even though the headers parsed. -/
theorem C8_zero_rows_format_error (raw : RawLAS)
    (h : ∀ r ∈ raw.dataRows, r.length ≠ raw.headerDefs.length) :
    read_las raw = Except.error "FormatError: zero data rows parsed" := by
  have hf :
      (raw.dataRows.filter fun r => r.length == raw.headerDefs.length) = [] := by
    rw [List.filter_eq_nil_iff]
    intro r hr
    simpa using h r hr
  simp [read_las, hf]

/-- Witness for C8 at a concrete raw file whose both rows have the wrong
field count. -/
theorem C8_zero_rows_format_error_witness :
    read_las raw8 = Except.error "FormatError: zero data rows parsed" :=
  C8_zero_rows_format_error raw8 (by decide)

lemma batch_ok_mem (doc : LASDocument) (ns : List String) (n : String)
    (dv : List ℚ × List ℚ) (hn : n ∈ ns)
    (h : get_curve_data doc n = Except.ok dv) :
    (n, dv) ∈ (get_all_curves_data_from doc ns).1 := by
  induction ns with
  | nil => simp at hn
  | cons m ms ih =>
    rcases List.mem_cons.mp hn with rfl | hmem
    · simp only [get_all_curves_data_from, h, exceptCase]
      exact List.mem_cons_self _ _
    · cases hm : get_curve_data doc m with
      | ok dvm =>
        simp only [get_all_curves_data_from, hm, exceptCase]
        exact List.mem_cons_of_mem _ (ih hmem)
      | error e =>
        simp only [get_all_curves_data_from, hm, exceptCase]
        exact ih hmem

lemma batch_error_not_key (doc : LASDocument) (ns : List String) (n : String)
    (e : String) (h : get_curve_data doc n = Except.error e) :
    ∀ p ∈ (get_all_curves_data_from doc ns).1, p.1 ≠ n := by
  induction ns with
  | nil => simp [get_all_curves_data_from]
  | cons m ms ih =>
    intro p hp
    cases hm : get_curve_data doc m with
    | ok dvm =>
      simp only [get_all_curves_data_from, hm, exceptCase] at hp
      rcases List.mem_cons.mp hp with rfl | h2
      · intro hq
        have hmn : m = n := hq
        rw [hmn, h] at hm
        exact absurd hm (by simp)
      · exact ih p h2
    | error f =>
      simp only [get_all_curves_data_from, hm, exceptCase] at hp
      exact ih p hp

lemma batch_error_warn (doc : LASDocument) (ns : List String) (n : String)
    (e : String) (hn : n ∈ ns)
    (h : get_curve_data doc n = Except.error e) :
    ("Warning: Could not extract curve " ++ n ++ ": " ++ e) ∈
      (get_all_curves_data_from doc ns).2 := by
  induction ns with
  | nil => simp at hn
  | cons m ms ih =>
    rcases List.mem_cons.mp hn with rfl | hmem
    · simp only [get_all_curves_data_from, h, exceptCase]
      exact List.mem_cons_self _ _
    · cases hm : get_curve_data doc m with
      | ok dvm =>
        simp only [get_all_curves_data_from, hm, exceptCase]
        exact ih hmem
      | error f =>
        simp only [get_all_curves_data_from, hm, exceptCase]
        exact List.mem_cons_of_mem _ (ih hmem)

/-- Claim C7: batch extraction returns a mapping holding every declared
curve whose extraction succeeds, and a failing curve does not abort the
batch: it is absent from the mapping and recorded as a warning naming it,
while every other curve is still returned. -/
theorem C7_batch_partial_success (doc : LASDocument) (n : String)
    (hn : n ∈ get_curve_names doc) :
    (∀ dv, get_curve_data doc n = Except.ok dv →
      (n, dv) ∈ (get_all_curves_data doc).1) ∧
    (∀ e, get_curve_data doc n = Except.error e →
      (∀ p ∈ (get_all_curves_data doc).1, p.1 ≠ n) ∧
      ("Warning: Could not extract curve " ++ n ++ ": " ++ e) ∈
        (get_all_curves_data doc).2) := by
  constructor
  · intro dv h
    exact batch_ok_mem doc _ n dv hn h
  · intro e h
    exact ⟨batch_error_not_key doc _ n e h, batch_error_warn doc _ n e hn h⟩

/-- Witness for C7 at doc7, whose declared curve BADCURVE has no data
column. -/
theorem C7_batch_partial_success_witness :
    (∀ dv, get_curve_data doc7 "BADCURVE" = Except.ok dv →
      ("BADCURVE", dv) ∈ (get_all_curves_data doc7).1) ∧
    (∀ e, get_curve_data doc7 "BADCURVE" = Except.error e →
      (∀ p ∈ (get_all_curves_data doc7).1, p.1 ≠ "BADCURVE") ∧
      ("Warning: Could not extract curve " ++ "BADCURVE" ++ ": " ++ e) ∈
        (get_all_curves_data doc7).2) :=
  C7_batch_partial_success doc7 "BADCURVE" (by decide)

/-- Claim C9 counterexample: in docC9 the index column is the first
declared curve, named MD rather than DEPT/DEPTH, and it still appears in
the available-curves list, so the first-column exclusion the claim states
does not hold. -/
theorem C9_available_curves_counterexample :
    (docC9.curves.head?.bind CurveDef.data) = some docC9.indexCol ∧
    docC9.curves.head?.map CurveDef.mnemonic = some "MD" ∧
    "MD" ∈ (get_available_curves docC9).map CurveInfo.name := by
  decide

/-- Claim C9 as amended: the available-curves list excludes exactly the
declared curves whose upper-cased mnemonic is DEPT or DEPTH (the column
position is never consulted), and every other declared curve appears with
its name, unit and description (the latter two defaulted to the empty
string when absent). -/
theorem C9_available_curves_amended (doc : LASDocument) :
    (∀ ci ∈ get_available_curves doc,
      upperStr ci.name ≠ "DEPT" ∧ upperStr ci.name ≠ "DEPTH" ∧
      ∃ c ∈ doc.curves, ci = ⟨c.mnemonic, c.unit.getD "", c.descr.getD ""⟩) ∧
    (∀ c ∈ doc.curves,
      upperStr c.mnemonic ≠ "DEPT" → upperStr c.mnemonic ≠ "DEPTH" →
      (⟨c.mnemonic, c.unit.getD "", c.descr.getD ""⟩ : CurveInfo) ∈
        get_available_curves doc) := by
  constructor
  · intro ci hci
    unfold get_available_curves at hci
    rw [List.mem_filterMap] at hci
    obtain ⟨c, hc, hceq⟩ := hci
    by_cases hdep :
        (upperStr c.mnemonic == "DEPT" || upperStr c.mnemonic == "DEPTH") = true
    · rw [if_pos hdep] at hceq
      exact absurd hceq (by simp)
    · rw [if_neg hdep] at hceq
      have hci2 : ci = ⟨c.mnemonic, c.unit.getD "", c.descr.getD ""⟩ := by
        simpa using hceq.symm
      subst hci2
      simp only [Bool.or_eq_true, beq_iff_eq, not_or] at hdep
      exact ⟨hdep.1, hdep.2, c, hc, rfl⟩
  · intro c hc h1 h2
    unfold get_available_curves
    rw [List.mem_filterMap]
    refine ⟨c, hc, ?_⟩
    rw [if_neg (by simp [h1, h2])]

/-- Witness for the amended C9 at docC9 and its GR curve. -/
theorem C9_available_curves_amended_witness :
    (⟨"GR", "API", ""⟩ : CurveInfo) ∈ get_available_curves docC9 :=
  (C9_available_curves_amended docC9).2 ⟨"GR", some "API", none, some [some 50]⟩
    (by decide) (by decide) (by decide)
